import Mathlib

/-!
Verification development for the COZ stackless coroutine library
(src/include/coz/coroutine.hpp and the generator example).

The C++ source is a macro-generated switch-based state machine.  We embed:

* the program-counter record `coro_state` with the sentinel `~0u`;
* the frame layout solver `size_align` / `unite` and the stateful
  metaprogramming accumulation (`smp_init_state` / `update_size_align`),
  modelled as a fold over the registered observations;
* the awaiter protocol (`await_ready` / `await_suspend` / `await_resume`)
  and the engine helpers `suspend` / `try_suspend`;
* the execution engine produced by `COZ_BEG` / `COZ_END`: a dispatch over
  blocks indexed by the `__COUNTER__`-derived ordinals, the retry loop of
  the engine's catch clause, the finalizer, and the public operations
  `start` / `resume` / `destroy` / `done` of `coz::coroutine`.

Coroutine bodies are represented by `Code`: the straight-line block
language the macros emit (one constructor per emitted statement shape).
A concrete coroutine is a `Machine`: the block table (the switch cases)
plus the promise hooks.  Traces of `Event`s record every promise hook and
every scratch-frame construction/destruction, so "called exactly once"
claims are statements about traces.
-/

namespace Coz

/-- Sentinel program-counter value, `enum : unsigned { SENTINEL = ~0u }`. -/
def SENTINEL : Nat := 4294967295

/-- Program counters, `struct coro_state` (coroutine.hpp:175). -/
structure coro_state where
  m_next : Nat := SENTINEL
  m_eh : Nat := SENTINEL
deriving DecidableEq, Repr

/-- Frame layout observation, `struct size_align` (coroutine.hpp:110). -/
structure size_align where
  size : Nat
  align : Nat
deriving DecidableEq, Repr

/-- The `unite` friend function of `size_align` (coroutine.hpp:114). -/
def unite (a b : size_align) : size_align :=
  ⟨max a.size b.size, max a.align b.align⟩

/-- The frame layout solver: `smp_init_state<State, size_align{}>` starts the
chain at `size_align{} = {0, 0}`, and each suspension point performs
`smp_store_state` of `unite(Val, curr.value)` (coroutine.hpp:409-419).
`get_size_align` reads the last stored state, i.e. the fold over every
registered observation in registration order. -/
def solve (l : List size_align) : size_align :=
  l.foldl (fun curr v => unite v curr) ⟨0, 0⟩

/-- The `body` template stores `alignas(mem.align) char m_mem_tmp[mem.size]`;
the specialisation `body<size_align{}, State>` has no `m_mem_tmp` member at
all, so a zero-size/zero-align frame takes no layout space
(coroutine.hpp:229-248). -/
def body_mem_bytes (sa : size_align) : Nat :=
  if sa = ⟨0, 0⟩ then 0 else sa.size

/-- Whether the `body` instantiation contains the `m_mem_tmp` member. -/
def body_has_mem_tmp (sa : size_align) : Bool :=
  !(sa = ⟨0, 0⟩ : Bool)

/-- Result shape of `await_suspend`: either `void` ("always actually
suspend") or `bool` ("suspend iff true"), as dispatched by `detail::suspend`
(coroutine.hpp:382-392). -/
inductive SuspendOut where
  | voidOut
  | boolOut (b : Bool)
deriving DecidableEq, Repr

/-- Model of one awaitable value: the results of its three protocol calls. -/
structure Awaiter (V : Type) where
  await_ready : Bool
  await_suspend : SuspendOut
  await_resume : V
deriving DecidableEq, Repr

/-- `detail::suspend` (coroutine.hpp:382-392): a `bool`-returning
`await_suspend` reports whether to actually suspend; a `void`-returning one
always suspends. -/
def suspend {V : Type} (a : Awaiter V) : Bool :=
  match a.await_suspend with
  | .voidOut => true
  | .boolOut b => b

/-- `detail::try_suspend` (coroutine.hpp:394-402): query `await_ready`; if
ready, report `false` (continue synchronously, no state transition);
otherwise record the resume point in `m_next` and invoke the suspend
notification. -/
def try_suspend {V : Type} (a : Awaiter V) (st : coro_state) (ip : Nat) :
    coro_state × Bool :=
  if a.await_ready then (st, false)
  else ({ st with m_next := ip }, suspend a)

/-- Observable events of one engine entry: every promise hook invocation and
every scratch-frame / state construction or destruction, in program order. -/
inductive Event (V E : Type) where
  | yieldCall (v : V)
  | returnVoidCall
  | returnValueCall (v : V)
  | finalizeCall
  | unhandledCall (e : E)
  | readyCheck (b : Bool)
  | suspendCall
  | resumeCall
  | destructTmp
  | destructState
deriving DecidableEq, Repr

/-- The current occupant of the shared scratch buffer `m_mem_tmp`: either a
yielded temporary (`COZ_YIELD`) or a live awaiter (`COZ_AWAIT`). -/
inductive ScratchVal (V : Type) where
  | tmp (v : V)
  | awt (a : Awaiter V)
deriving DecidableEq, Repr

/-- The promise hooks consumed by the engine (README "Promise" interface):
`yield_value`, `return_void`, `return_value`, `finalize`, and
`unhandled_exception` (which may let the error escape to the engine's own
caller, as the default `throw;` does). -/
structure PromiseOps (P V E : Type) where
  yield_value : P → V → P
  return_void : P → P
  return_value : P → V → P
  finalize : P → P
  unhandled_exception : P → E → P × Option E

/-- The block language emitted by the COZ macros.  Each constructor is one
statement shape of the generated switch body:

* `assign` - ordinary body statement updating the locals (`_coz_state`);
* `branch` - a conditional (`if`/loop condition) in body code;
* `goto` - a backward/forward jump to another switch-region label
  (loop back-edges in body code);
* `raiseE` - `throw` of an error computed from the locals;
* `setNext` / `setEh` - the stores to `_coz_ctx->m_next` / `m_eh`;
* `yieldTmp` - `COZ_YIELD`'s `yield_value(deref(new (mem) tmp{expr}))`;
* `newAwt` - `new (_coz_mem_tmp) _coz_awt_t{...}` of `z_COZ_AWAIT_SUSPEND`;
* `trySuspendAt ip` - the `try_suspend(..., ip)` call and its two exits:
  `goto _coz_suspend` or fall through to `case ip` (coroutine.hpp:539-550);
* `awaitResume` - `auto_reset{...}->await_resume()` at `case ip`;
* `destructTmpAt` - explicit scratch-occupant destructor call;
* `callReturnVoid` / `callReturnValue` - the return hooks
  (`implicit_return` / `explicit_return`, coroutine.hpp:361-380);
* `rethrowStored` - `COZ_CATCH`'s `rethrow_exception(_coz_ex.release())`
  into the user catch clauses: `sel e` tells whether some clause matches and
  `hc e` is that clause's code (coroutine.hpp:637-641);
* `gotoFinalize` - `goto _coz_finalize`, i.e. `finalizer{this, _coz_ctx}`
  (destroy the state closure, call `finalize`) then fall out of the switch;
* `retToCaller` - `goto _coz_suspend`: return control to the caller. -/
inductive Code (S V E : Type) where
  | assign (f : S → S) (k : Code S V E)
  | branch (c : S → Bool) (t : Code S V E) (e : Code S V E)
  | goto (l : Nat)
  | raiseE (f : S → E)
  | setNext (n : Nat) (k : Code S V E)
  | setEh (n : Nat) (k : Code S V E)
  | yieldTmp (f : S → V) (k : Code S V E)
  | newAwt (f : S → Awaiter V) (k : Code S V E)
  | trySuspendAt (ip : Nat)
  | awaitResume (g : S → V → S) (k : Code S V E)
  | destructTmpAt (k : Code S V E)
  | callReturnVoid (k : Code S V E)
  | callReturnValue (f : S → V) (k : Code S V E)
  | rethrowStored (sel : E → Bool) (hc : E → Code S V E)
  | gotoFinalize
  | retToCaller

/-- One coroutine instance's mutable data: the program counters, the state
closure (`manual_lifetime<State>`, `none` once destructed), the scratch
frame occupant, the exception carrier `_coz_ex`, and the promise. -/
structure Cfg (S V E P : Type) where
  st : coro_state
  locals : Option S
  scratch : Option (ScratchVal V)
  exSlot : Option E
  promise : P
deriving DecidableEq, Repr

/-- A compiled coroutine: the switch-case table (label `0` is the entry;
suspension points occupy the `__COUNTER__`-derived ordinals) plus the
promise hooks. -/
structure Machine (S V E P : Type) where
  blocks : Nat → Option (Code S V E)
  ops : PromiseOps P V E

/-- Result of running one block to its control transfer. -/
inductive StepOut (S V E P : Type) where
  | toCaller (cfg : Cfg S V E P) (tr : List (Event V E))
  | thrown (e : E) (cfg : Cfg S V E P) (tr : List (Event V E))
  | jump (l : Nat) (cfg : Cfg S V E P) (tr : List (Event V E))
deriving DecidableEq, Repr

/-- Result of running the switch body until it yields control or throws. -/
inductive RunOut (S V E P : Type) where
  | toCaller (cfg : Cfg S V E P) (tr : List (Event V E))
  | thrown (e : E) (cfg : Cfg S V E P) (tr : List (Event V E))
deriving DecidableEq, Repr

/-- Result of one engine entry (`m_body.invoke(this)`): the new instance
data, the event trace, and an error escaping to the entry's caller (from a
rethrowing `unhandled_exception`). -/
structure EntryOut (S V E P : Type) where
  cfg : Cfg S V E P
  tr : List (Event V E)
  escape : Option E
deriving DecidableEq, Repr

/-- Run one block of generated code to its next control transfer.  Each case
mirrors the corresponding macro-emitted statement; `none` means the run hit
a configuration the generated code can never produce (e.g. using destructed
locals). -/
def runBlock {S V E P : Type} (m : Machine S V E P) :
    Code S V E → Cfg S V E P → List (Event V E) → Option (StepOut S V E P)
  | .assign f k, cfg, acc =>
    match cfg.locals with
    | some s => runBlock m k { cfg with locals := some (f s) } acc
    | none => none
  | .branch c t e, cfg, acc =>
    match cfg.locals with
    | some s =>
      if c s then runBlock m t cfg acc else runBlock m e cfg acc
    | none => none
  | .goto l, cfg, acc => some (.jump l cfg acc)
  | .raiseE f, cfg, acc =>
    match cfg.locals with
    | some s => some (.thrown (f s) cfg acc)
    | none => none
  | .setNext n k, cfg, acc =>
    runBlock m k { cfg with st := { cfg.st with m_next := n } } acc
  | .setEh n k, cfg, acc =>
    runBlock m k { cfg with st := { cfg.st with m_eh := n } } acc
  | .yieldTmp f k, cfg, acc =>
    match cfg.locals with
    | some s =>
      runBlock m k
        { cfg with scratch := some (.tmp (f s)),
                   promise := m.ops.yield_value cfg.promise (f s) }
        (acc ++ [.yieldCall (f s)])
    | none => none
  | .newAwt f k, cfg, acc =>
    match cfg.locals with
    | some s => runBlock m k { cfg with scratch := some (.awt (f s)) } acc
    | none => none
  | .trySuspendAt ip, cfg, acc =>
    match cfg.scratch with
    | some (.awt a) =>
      let r := try_suspend a cfg.st ip
      let evs := if a.await_ready then [Event.readyCheck true]
                 else [Event.readyCheck false, Event.suspendCall]
      if r.2 then some (.toCaller { cfg with st := r.1 } (acc ++ evs))
      else some (.jump ip { cfg with st := r.1 } (acc ++ evs))
    | _ => none
  | .awaitResume g k, cfg, acc =>
    match cfg.scratch, cfg.locals with
    | some (.awt a), some s =>
      runBlock m k
        { cfg with scratch := none, locals := some (g s a.await_resume) }
        (acc ++ [.resumeCall, .destructTmp])
    | _, _ => none
  | .destructTmpAt k, cfg, acc =>
    match cfg.scratch with
    | some _ => runBlock m k { cfg with scratch := none } (acc ++ [.destructTmp])
    | none => none
  | .callReturnVoid k, cfg, acc =>
    runBlock m k { cfg with promise := m.ops.return_void cfg.promise }
      (acc ++ [.returnVoidCall])
  | .callReturnValue f k, cfg, acc =>
    match cfg.locals with
    | some s =>
      runBlock m k
        { cfg with promise := m.ops.return_value cfg.promise (f s) }
        (acc ++ [.returnValueCall (f s)])
    | none => none
  | .rethrowStored sel hc, cfg, acc =>
    match cfg.exSlot with
    | some e =>
      if sel e then runBlock m (hc e) { cfg with exSlot := none } acc
      else some (.thrown e { cfg with exSlot := none } acc)
    | none => none
  | .gotoFinalize, cfg, acc =>
    some (.toCaller
      { cfg with locals := none, promise := m.ops.finalize cfg.promise }
      (acc ++ [.destructState, .finalizeCall]))
  | .retToCaller, cfg, acc => some (.toCaller cfg acc)

/-- Run from a block, following `goto`-style jumps through the block table.
`fuel` bounds the number of jumps taken. -/
def runFrom {S V E P : Type} (m : Machine S V E P) :
    Nat → Code S V E → Cfg S V E P → List (Event V E) →
    Option (RunOut S V E P)
  | 0, c, cfg, acc =>
    match runBlock m c cfg acc with
    | some (.toCaller cfg2 tr) => some (.toCaller cfg2 tr)
    | some (.thrown e cfg2 tr) => some (.thrown e cfg2 tr)
    | _ => none
  | fuel + 1, c, cfg, acc =>
    match runBlock m c cfg acc with
    | some (.toCaller cfg2 tr) => some (.toCaller cfg2 tr)
    | some (.thrown e cfg2 tr) => some (.thrown e cfg2 tr)
    | some (.jump l cfg2 tr) =>
      match m.blocks l with
      | some c2 => runFrom m fuel c2 cfg2 tr
      | none => none
    | none => none

/-- One engine entry (the generated `operator()`): dispatch
`switch (_coz_ctx->m_next)` — a missing case falls out of the switch with
nothing done — then the engine's catch clause: `m_next = m_eh`; if a
handler is registered, store the error in `_coz_ex` and `goto _coz_retry`;
otherwise run the finalizer and `unhandled_exception`
(coroutine.hpp:481-501). -/
def engineLoop {S V E P : Type} (m : Machine S V E P) :
    Nat → Cfg S V E P → List (Event V E) → Option (EntryOut S V E P)
  | 0, _, _ => none
  | fuel + 1, cfg, acc =>
    match m.blocks cfg.st.m_next with
    | none => some ⟨cfg, acc, none⟩
    | some c =>
      match runFrom m fuel c cfg acc with
      | none => none
      | some (.toCaller cfg2 tr) => some ⟨cfg2, tr, none⟩
      | some (.thrown e cfg2 tr) =>
        if cfg2.st.m_eh = SENTINEL then
          some ⟨{ cfg2 with
                  st := { cfg2.st with m_next := cfg2.st.m_eh },
                  locals := none,
                  promise := m.ops.finalize
                    (m.ops.unhandled_exception cfg2.promise e).1 },
                tr ++ [.unhandledCall e, .destructState, .finalizeCall],
                (m.ops.unhandled_exception cfg2.promise e).2⟩
        else
          engineLoop m fuel
            { cfg2 with
              st := { cfg2.st with m_next := cfg2.st.m_eh },
              exSlot := some e } tr

/-- A freshly constructed coroutine instance: `coro_state` default-initialises
both counters to `SENTINEL` (coroutine.hpp:175-178, 304-309). -/
def mkCoroutine {S V E P : Type} (p0 : P) : Cfg S V E P :=
  ⟨{}, none, none, none, p0⟩

/-- `coroutine::done` / `coroutine_handle::done`:
`m_next == SENTINEL` (coroutine.hpp:270-273, 320). -/
def coro_done {S V E P : Type} (cfg : Cfg S V E P) : Bool :=
  cfg.st.m_next == SENTINEL

/-- `coroutine::start`: emplace the state closure from the parameters, set
`m_next = 0`, invoke the body (coroutine.hpp:322-326). -/
def coro_start {S V E P : Type} (m : Machine S V E P) (fuel : Nat) (s0 : S)
    (cfg : Cfg S V E P) : Option (EntryOut S V E P) :=
  engineLoop m fuel
    { cfg with locals := some s0, st := { cfg.st with m_next := 0 } } []

/-- `coroutine::resume`: re-invoke the body (coroutine.hpp:328). -/
def coro_resume {S V E P : Type} (m : Machine S V E P) (fuel : Nat)
    (cfg : Cfg S V E P) : Option (EntryOut S V E P) :=
  engineLoop m fuel cfg []

/-- `coroutine::destroy`: `assert(m_next != SENTINEL)` — modelled as `none`
when the precondition is violated — then `++m_next` and invoke
(coroutine.hpp:330-334). -/
def coro_destroy {S V E P : Type} (m : Machine S V E P) (fuel : Nat)
    (cfg : Cfg S V E P) : Option (EntryOut S V E P) :=
  if cfg.st.m_next = SENTINEL then none
  else
    engineLoop m fuel
      { cfg with st := { cfg.st with m_next := cfg.st.m_next + 1 } } []

/-! ### The generator example

`src/example/generator_demo.cpp` defines

```
auto range(int i, int e) COZ_BEG(demo::generator<int>, (i, e)) {
    for (; i != e; ++i) {
        COZ_YIELD(i);
    }
}
COZ_END
```

with `demo::generator_t<T>::promise_type` from `src/example/generator.hpp`:
`yield_value` stores into `std::optional<T> m_data`, `return_void` and
`finalize` do nothing, `unhandled_exception` rethrows.

Macro expansion assigns `__COUNTER__`-ordinals: the yield's resume label is
`1` and its destroy label is `2`; label `0` is the entry (the `for`
condition check, to which the loop's back edge also returns). -/

/-- Promise hooks of `demo::generator_t<T>::promise_type`
(src/example/generator.hpp). -/
def genOps (V : Type) : PromiseOps (Option V) V Nat where
  yield_value := fun _ v => some v
  return_void := id
  return_value := fun p _ => p
  finalize := id
  unhandled_exception := fun p e => (p, some e)

/-- Entry block of `range`: the `for (; i != e; ++i)` condition, then either
the expanded `COZ_YIELD(i)` or the implicit-return path of `COZ_END`
(`m_next = SENTINEL; implicit_return; goto _coz_finalize`). -/
def rangeBody : Code (Int × Int) Int Nat :=
  .branch (fun s => s.1 != s.2)
    (.yieldTmp (fun s => s.1) (.setNext 1 .retToCaller))
    (.setNext SENTINEL (.callReturnVoid .gotoFinalize))

/-- Block table of the compiled `range` coroutine: label 1 is
`case _coz_ip:` of the yield (destruct the temporary, `++i`, loop back),
label 2 is its `z_COZ_NEW_EH` destroy case (destruct the temporary,
`goto _coz_finalize`). -/
def rangeBlocks : Nat → Option (Code (Int × Int) Int Nat)
  | 0 => some rangeBody
  | 1 => some (.destructTmpAt (.assign (fun s => (s.1 + 1, s.2)) (.goto 0)))
  | 2 => some (.destructTmpAt .gotoFinalize)
  | _ => none

/-- The compiled `range` coroutine. -/
def rangeM : Machine (Int × Int) Int Nat (Option Int) :=
  ⟨rangeBlocks, genOps Int⟩

/-- The configuration of `range` suspended at its yield with loop variable
`i`: `m_next` records the resume label, the scratch frame holds the yielded
temporary, the promise holds the yielded value. -/
def rangeSusp (i e : Int) : Cfg (Int × Int) Int Nat (Option Int) :=
  ⟨⟨1, SENTINEL⟩, some (i, e), some (.tmp i), none, some i⟩

/-- The configuration of `range` after it has completed. -/
def rangeDone (v : Option Int) : Cfg (Int × Int) Int Nat (Option Int) :=
  ⟨⟨SENTINEL, SENTINEL⟩, none, none, none, v⟩

/-- The consuming loop of `generator_impl` (src/example/generator.hpp):
while not `done()`, read `*promise().m_data` and `resume()`.  Returns the
values consumed and the final configuration; `gas` bounds the number of
loop iterations. -/
def drainGen : Nat → Cfg (Int × Int) Int Nat (Option Int) →
    Option (List Int × Cfg (Int × Int) Int Nat (Option Int))
  | 0, _ => none
  | gas + 1, cfg =>
    if coro_done cfg then some ([], cfg)
    else
      match cfg.promise with
      | none => none
      | some v =>
        match coro_resume rangeM 8 cfg with
        | none => none
        | some out =>
          match drainGen gas out.cfg with
          | none => none
          | some (vs, cf) => some (v :: vs, cf)

/-- Reference sequential loop, `n` iterations from `i`: the list
`[i, i+1, ..., i+n-1]`. -/
def refRangeGo : Nat → Int → List Int
  | 0, _ => []
  | n + 1, i => i :: refRangeGo n (i + 1)

/-- Reference sequential semantics of `range(i, e)`: the integers
`i, i+1, ..., e-1` in increasing order (`e - i` values). -/
def refRange (i e : Int) : List Int := refRangeGo (e - i).toNat i

/-- Start `range(i, e)` and consume it to completion. -/
def rangeRun (i e : Int) :
    Option (List Int × Cfg (Int × Int) Int Nat (Option Int)) :=
  match coro_start rangeM 8 (i, e) (mkCoroutine none) with
  | none => none
  | some out => drainGen ((e - i).toNat + 1) out.cfg

/-! ### Small representative coroutines for the remaining claims -/

/-- Promise hooks of a task-style promise that records the returned value
(`return_value` stores it) and records nothing else; `unhandled_exception`
rethrows like the default. -/
def retOps (V : Type) : PromiseOps (Option V) V Nat where
  yield_value := fun p _ => p
  return_void := id
  return_value := fun _ v => some v
  finalize := id
  unhandled_exception := fun p e => (p, some e)

/-- A coroutine whose body is exactly `COZ_RETURN(v)` where `v` is the
captured parameter: `m_next = SENTINEL; explicit_return(ctx, v);
goto _coz_finalize` (coroutine.hpp:625-630, 377-380). -/
def retM (V : Type) : Machine V V Nat (Option V) :=
  ⟨fun l => if l = 0
      then some (.setNext SENTINEL
        (.callReturnValue (fun s => s) .gotoFinalize))
      else none,
   retOps V⟩

/-- A coroutine whose body is exactly `COZ_RETURN()`:
`m_next = SENTINEL; return_void(); goto _coz_finalize`
(coroutine.hpp:620-630). -/
def retVoidM (V : Type) : Machine V V Nat (Option V) :=
  ⟨fun l => if l = 0
      then some (.setNext SENTINEL (.callReturnVoid .gotoFinalize))
      else none,
   retOps V⟩

/-- A coroutine with an empty body and zero suspension points: `COZ_END`
alone emits `m_next = SENTINEL; implicit_return; goto _coz_finalize`. -/
def zeroM : Machine Unit Unit Nat (Option Nat) :=
  ⟨fun l => if l = 0
      then some (.setNext SENTINEL (.callReturnVoid .gotoFinalize))
      else none,
   ⟨fun p _ => p, id, fun p _ => p, id, fun p e => (p, some e)⟩⟩

/-- The configuration `zeroM` reaches right after `start`. -/
def zeroDoneCfg : Cfg Unit Unit Nat (Option Nat) :=
  ⟨⟨SENTINEL, SENTINEL⟩, none, none, none, none⟩

/-- A coroutine whose body immediately throws error `5` with no guarded
region installed; the promise records the error it receives in
`unhandled_exception` and rethrows. -/
def raiseM : Machine Unit Unit Nat (Option Nat) :=
  ⟨fun l => if l = 0 then some (.raiseE (fun _ => 5)) else none,
   ⟨fun p _ => p, id, fun p _ => p, id, fun _ e => (some e, some e)⟩⟩

/-- Handler body used in `tcM`: the `COZ_CATCH` clause does `COZ_RETURN()`. -/
def tcHandler : Code Unit Int Nat :=
  .setNext SENTINEL (.callReturnVoid .gotoFinalize)

/-- A coroutine exercising `COZ_TRY`/`COZ_CATCH` exactly as the macros
expand it:

```
COZ_TRY { /* empty */ } COZ_CATCH (err == 7) { COZ_RETURN(); }
throw 7;   // raised AFTER the guarded region has exited successfully
```

`COZ_TRY` allocates handler ordinal `1` (`_coz_prev_eh = SENTINEL`,
`_coz_curr_eh = 1`) and stores `m_eh = 1`; the region body is empty; the
code that follows the region raises `7`.  Faithful to coroutine.hpp:632-641,
nothing restores `m_eh` on the successful fall-through out of the region.
Label 1 is the `COZ_CATCH` case: `m_eh = _coz_prev_eh;
rethrow_exception(_coz_ex.release())` into the clause `(err == 7)`. -/
def tcBlocks : Nat → Option (Code Unit Int Nat)
  | 0 => some (.setEh 1 (.raiseE (fun _ => 7)))
  | 1 => some (.setEh SENTINEL
      (.rethrowStored (fun e => e == 7) (fun _ => tcHandler)))
  | _ => none

/-- The try/catch coroutine. -/
def tcM : Machine Unit Int Nat (Option Nat) :=
  ⟨tcBlocks, ⟨fun p _ => p, id, fun p _ => p, id, fun _ e => (some e, some e)⟩⟩

/-! ## Helper lemmas -/

theorem unite_comm (a b : size_align) : unite a b = unite b a := by
  simp [unite, Nat.max_comm]

theorem unite_assoc (a b c : size_align) :
    unite (unite a b) c = unite a (unite b c) := by
  simp [unite, Nat.max_assoc]

theorem unite_self (a : size_align) : unite a a = a := by
  simp [unite]

theorem solve_aux (l : List size_align) (init : size_align) :
    l.foldl (fun curr v => unite v curr) init =
      ⟨l.foldl (fun a v => max a v.size) init.size,
       l.foldl (fun a v => max a v.align) init.align⟩ := by
  induction l generalizing init with
  | nil => rfl
  | cons x l ih =>
    simp only [List.foldl_cons]
    rw [ih]
    simp [unite, Nat.max_comm]

theorem solve_perm {l₁ l₂ : List size_align} (h : l₁.Perm l₂) :
    solve l₁ = solve l₂ := by
  unfold solve
  haveI : Std.Commutative unite := ⟨unite_comm⟩
  haveI : Std.Associative unite := ⟨unite_assoc⟩
  haveI : RightCommutative (fun curr v => unite v curr) :=
    ⟨fun b a₁ a₂ => by
      show unite a₂ (unite a₁ b) = unite a₁ (unite a₂ b)
      rw [← unite_assoc, unite_comm a₂ a₁, unite_assoc]⟩
  exact h.foldl_eq (⟨0, 0⟩ : size_align)

theorem solve_dup (x : size_align) (l : List size_align) :
    solve (x :: x :: l) = solve (x :: l) := by
  unfold solve
  simp only [List.foldl_cons]
  rw [← unite_assoc, unite_self]

theorem runFrom_toCaller {S V E P : Type} (m : Machine S V E P) (fuel : Nat)
    {c : Code S V E} {cfg cfg2 : Cfg S V E P} {acc tr : List (Event V E)}
    (h : runBlock m c cfg acc = some (.toCaller cfg2 tr)) :
    runFrom m fuel c cfg acc = some (.toCaller cfg2 tr) := by
  cases fuel <;> simp [runFrom, h]

theorem runFrom_thrown {S V E P : Type} (m : Machine S V E P) (fuel : Nat)
    {c : Code S V E} {cfg cfg2 : Cfg S V E P} {acc tr : List (Event V E)}
    {e : E} (h : runBlock m c cfg acc = some (.thrown e cfg2 tr)) :
    runFrom m fuel c cfg acc = some (.thrown e cfg2 tr) := by
  cases fuel <;> simp [runFrom, h]

theorem runFrom_jump {S V E P : Type} (m : Machine S V E P) (fuel : Nat)
    {c c2 : Code S V E} {cfg cfg2 : Cfg S V E P} {acc tr : List (Event V E)}
    {l : Nat} (h : runBlock m c cfg acc = some (.jump l cfg2 tr))
    (h2 : m.blocks l = some c2) :
    runFrom m (fuel + 1) c cfg acc = runFrom m fuel c2 cfg2 tr := by
  simp [runFrom, h, h2]

theorem engineLoop_no_case {S V E P : Type} (m : Machine S V E P) (fuel : Nat)
    {cfg : Cfg S V E P} {acc : List (Event V E)}
    (h : m.blocks cfg.st.m_next = none) :
    engineLoop m (fuel + 1) cfg acc = some ⟨cfg, acc, none⟩ := by
  simp [engineLoop, h]

theorem engineLoop_toCaller {S V E P : Type} (m : Machine S V E P) (fuel : Nat)
    {c : Code S V E} {cfg cfg2 : Cfg S V E P} {acc tr : List (Event V E)}
    (h : m.blocks cfg.st.m_next = some c)
    (h2 : runFrom m fuel c cfg acc = some (.toCaller cfg2 tr)) :
    engineLoop m (fuel + 1) cfg acc = some ⟨cfg2, tr, none⟩ := by
  simp [engineLoop, h, h2]

theorem engineLoop_thrown_unhandled {S V E P : Type} (m : Machine S V E P)
    (fuel : Nat) {c : Code S V E} {cfg cfg2 : Cfg S V E P}
    {acc tr : List (Event V E)} {e : E}
    (h : m.blocks cfg.st.m_next = some c)
    (h2 : runFrom m fuel c cfg acc = some (.thrown e cfg2 tr))
    (h3 : cfg2.st.m_eh = SENTINEL) :
    engineLoop m (fuel + 1) cfg acc =
      some ⟨{ cfg2 with
              st := { cfg2.st with m_next := SENTINEL },
              locals := none,
              promise := m.ops.finalize
                (m.ops.unhandled_exception cfg2.promise e).1 },
            tr ++ [.unhandledCall e, .destructState, .finalizeCall],
            (m.ops.unhandled_exception cfg2.promise e).2⟩ := by
  simp [engineLoop, h, h2, h3]

theorem engineLoop_thrown_handler {S V E P : Type} (m : Machine S V E P)
    (fuel : Nat) {c : Code S V E} {cfg cfg2 : Cfg S V E P}
    {acc tr : List (Event V E)} {e : E}
    (h : m.blocks cfg.st.m_next = some c)
    (h2 : runFrom m fuel c cfg acc = some (.thrown e cfg2 tr))
    (h3 : cfg2.st.m_eh ≠ SENTINEL) :
    engineLoop m (fuel + 1) cfg acc =
      engineLoop m fuel
        { cfg2 with
          st := { cfg2.st with m_next := cfg2.st.m_eh },
          exSlot := some e } tr := by
  simp [engineLoop, h, h2, h3]

/-! ## Claims -/

/-- C8: the Frame Layout Solver's final result is the pairwise maximum of
(size, alignment) over every registered observation, independent of the
registration order, and registering the same observation again does not
change the result. -/
theorem frame_solver_is_pairwise_max :
    (∀ l : List size_align,
      solve l = ⟨l.foldl (fun a v => max a v.size) 0,
                 l.foldl (fun a v => max a v.align) 0⟩)
    ∧ (∀ l₁ l₂ : List size_align, l₁.Perm l₂ → solve l₁ = solve l₂)
    ∧ (∀ (x : size_align) (l : List size_align), x ∈ l →
        solve (x :: l) = solve l) := by
  refine ⟨fun l => solve_aux l ⟨0, 0⟩, fun _ _ h => solve_perm h, ?_⟩
  intro x l hx
  have h1 : l.Perm (x :: l.erase x) := List.perm_cons_erase hx
  calc solve (x :: l) = solve (x :: x :: l.erase x) := solve_perm (h1.cons x)
    _ = solve (x :: l.erase x) := solve_dup x (l.erase x)
    _ = solve l := (solve_perm h1).symm

/-- C8 witness: concrete instantiation of the permutation and idempotence
hypotheses. -/
theorem frame_solver_is_pairwise_max_witness :
    ([(⟨4, 4⟩ : size_align), ⟨8, 2⟩].Perm [⟨8, 2⟩, ⟨4, 4⟩]
      ∧ solve [⟨4, 4⟩, ⟨8, 2⟩] = solve [⟨8, 2⟩, ⟨4, 4⟩])
    ∧ ((⟨8, 2⟩ : size_align) ∈ [(⟨8, 2⟩ : size_align), ⟨4, 4⟩]
      ∧ solve (⟨8, 2⟩ :: [⟨8, 2⟩, ⟨4, 4⟩]) = solve [⟨8, 2⟩, ⟨4, 4⟩]) :=
  ⟨⟨by decide, frame_solver_is_pairwise_max.2.1 _ _ (by decide)⟩,
   ⟨by decide, frame_solver_is_pairwise_max.2.2 ⟨8, 2⟩ [⟨8, 2⟩, ⟨4, 4⟩]
      (by decide)⟩⟩

/-- C6: a coroutine completing through the explicit-return path delivers the
returned value `v` to the promise's `return_value` hook (round-trip: the
drained value equals the value passed to `COZ_RETURN`), sets `m_next` to the
sentinel, and calls `finalize` exactly once; the no-value variant calls
`return_void` instead.  Generic in the value type `V`, covering primitive
and move-only payloads alike. -/
theorem explicit_return_round_trip (V : Type) (v : V) (f : Nat) :
    coro_start (retM V) (f + 1) v (mkCoroutine none) =
      some ⟨⟨⟨SENTINEL, SENTINEL⟩, none, none, none, some v⟩,
            [.returnValueCall v, .destructState, .finalizeCall], none⟩
    ∧ coro_start (retVoidM V) (f + 1) v (mkCoroutine none) =
      some ⟨⟨⟨SENTINEL, SENTINEL⟩, none, none, none, none⟩,
            [.returnVoidCall, .destructState, .finalizeCall], none⟩
    ∧ coro_done (⟨⟨SENTINEL, SENTINEL⟩, none, none, none, some v⟩ :
        Cfg V V Nat (Option V)) = true := by
  have h1 : runBlock (retM V)
      (.setNext SENTINEL (.callReturnValue (fun s => s) .gotoFinalize))
      (⟨⟨0, SENTINEL⟩, some v, none, none, none⟩ : Cfg V V Nat (Option V))
      [] =
      some (.toCaller ⟨⟨SENTINEL, SENTINEL⟩, none, none, none, some v⟩
        [.returnValueCall v, .destructState, .finalizeCall]) := by
    simp [runBlock, retM, retOps]
  have h2 : runBlock (retVoidM V)
      (.setNext SENTINEL (.callReturnVoid .gotoFinalize))
      (⟨⟨0, SENTINEL⟩, some v, none, none, none⟩ : Cfg V V Nat (Option V))
      [] =
      some (.toCaller ⟨⟨SENTINEL, SENTINEL⟩, none, none, none, none⟩
        [.returnVoidCall, .destructState, .finalizeCall]) := by
    simp [runBlock, retVoidM, retOps]
  exact ⟨engineLoop_toCaller (retM V) f rfl (runFrom_toCaller (retM V) f h1),
         engineLoop_toCaller (retVoidM V) f rfl
           (runFrom_toCaller (retVoidM V) f h2),
         by simp [coro_done, SENTINEL]⟩

/-- C7: a coroutine with zero suspension points has a frame of size 0 and
alignment 0 (the solver's initial state is never updated), the
`body<size_align{}, State>` specialisation occupies no layout space, and
`start` drives the body straight to completion: `done()` is true immediately
after `start`, and a subsequent `resume` dispatches to no case and executes
no body code. -/
theorem zero_suspension_points :
    solve [] = ⟨0, 0⟩
    ∧ body_mem_bytes (solve []) = 0
    ∧ body_has_mem_tmp (solve []) = false
    ∧ coro_start zeroM 8 () (mkCoroutine none) =
        some ⟨zeroDoneCfg, [.returnVoidCall, .destructState, .finalizeCall],
              none⟩
    ∧ coro_done zeroDoneCfg = true
    ∧ coro_resume zeroM 8 zeroDoneCfg = some ⟨zeroDoneCfg, [], none⟩ := by
  refine ⟨rfl, rfl, rfl, by decide, by decide, by decide⟩

/-- C10: resuming a done coroutine (`m_next = SENTINEL`) dispatches the
switch with no matching case: the entry returns with no body statement
executed, no promise hook called (empty trace), and the configuration —
program counters, exception carrier, and promise — unchanged. -/
theorem resume_when_done_is_noop {S V E P : Type} (m : Machine S V E P)
    (f : Nat) (cfg : Cfg S V E P) (hb : m.blocks SENTINEL = none)
    (hd : cfg.st.m_next = SENTINEL) :
    coro_resume m (f + 1) cfg = some ⟨cfg, [], none⟩ := by
  simp [coro_resume, engineLoop, hd, hb]

/-- C10 witness: resuming the completed `range` coroutine is a no-op. -/
theorem resume_when_done_is_noop_witness :
    rangeM.blocks SENTINEL = none
    ∧ (rangeDone (some 2)).st.m_next = SENTINEL
    ∧ coro_resume rangeM 8 (rangeDone (some 2)) =
        some ⟨rangeDone (some 2), [], none⟩ :=
  ⟨rfl, rfl,
   resume_when_done_is_noop rangeM 7 (rangeDone (some 2)) rfl rfl⟩

/-- C4: at a suspension point the engine constructs the awaitable into the
scratch frame (`newAwt`), then queries `await_ready` exactly once
(`readyCheck` appears once in the emitted events): if ready, execution
continues at the resume case with no state transition; if not ready, the
engine first records the resume label in `m_next` and then invokes
`await_suspend`; an `await_suspend` returning `false` continues
synchronously as if ready, while a void-returning one (and one returning
`true`) yields control to the caller. -/
theorem await_suspend_protocol :
    (∀ (V : Type) (a : Awaiter V) (st : coro_state) (ip : Nat),
      a.await_ready = true → try_suspend a st ip = (st, false))
    ∧ (∀ (V : Type) (a : Awaiter V) (st : coro_state) (ip : Nat),
      a.await_ready = false →
      try_suspend a st ip = ({ st with m_next := ip }, suspend a))
    ∧ (∀ (V : Type) (r : Bool) (b : Bool) (v : V),
      suspend ⟨r, .boolOut b, v⟩ = b ∧ suspend ⟨r, .voidOut, v⟩ = true)
    ∧ (∀ (S V E P : Type) (m : Machine S V E P) (f : S → Awaiter V)
        (k : Code S V E) (cfg : Cfg S V E P) (acc : List (Event V E)) (s : S),
      cfg.locals = some s →
      runBlock m (.newAwt f k) cfg acc =
        runBlock m k { cfg with scratch := some (.awt (f s)) } acc)
    ∧ (∀ (S V E P : Type) (m : Machine S V E P) (ip : Nat)
        (cfg : Cfg S V E P) (acc : List (Event V E)) (a : Awaiter V),
      cfg.scratch = some (.awt a) → a.await_ready = true →
      runBlock m (.trySuspendAt ip) cfg acc =
        some (.jump ip cfg (acc ++ [.readyCheck true])))
    ∧ (∀ (S V E P : Type) (m : Machine S V E P) (ip : Nat)
        (cfg : Cfg S V E P) (acc : List (Event V E)) (a : Awaiter V),
      cfg.scratch = some (.awt a) → a.await_ready = false →
      a.await_suspend = .boolOut false →
      runBlock m (.trySuspendAt ip) cfg acc =
        some (.jump ip { cfg with st := { cfg.st with m_next := ip } }
          (acc ++ [.readyCheck false, .suspendCall])))
    ∧ (∀ (S V E P : Type) (m : Machine S V E P) (ip : Nat)
        (cfg : Cfg S V E P) (acc : List (Event V E)) (a : Awaiter V),
      cfg.scratch = some (.awt a) → a.await_ready = false →
      suspend a = true →
      runBlock m (.trySuspendAt ip) cfg acc =
        some (.toCaller { cfg with st := { cfg.st with m_next := ip } }
          (acc ++ [.readyCheck false, .suspendCall]))) := by
  refine ⟨?_, ?_, ?_, ?_, ?_, ?_, ?_⟩
  · intro V a st ip h; simp [try_suspend, h]
  · intro V a st ip h; simp [try_suspend, h]
  · intro V r b v; exact ⟨rfl, rfl⟩
  · intro S V E P m f k cfg acc s h; simp [runBlock, h]
  · intro S V E P m ip cfg acc a hs h
    obtain ⟨st, lo, sc, ex, pr⟩ := cfg
    cases hs
    simp [runBlock, try_suspend, h]
  · intro S V E P m ip cfg acc a hs h hb
    obtain ⟨st, lo, sc, ex, pr⟩ := cfg
    cases hs
    simp [runBlock, try_suspend, h, suspend, hb]
  · intro S V E P m ip cfg acc a hs h hb
    obtain ⟨st, lo, sc, ex, pr⟩ := cfg
    cases hs
    simp [runBlock, try_suspend, h, hb]

/-- C4 witness: a concrete not-ready awaiter whose `await_suspend` returns
`false` (continue synchronously) at suspension ordinal 1. -/
theorem await_suspend_protocol_witness :
    ((⟨false, .boolOut false, (0 : Int)⟩ : Awaiter Int).await_ready = false
      ∧ (⟨false, .boolOut false, (0 : Int)⟩ :
          Awaiter Int).await_suspend = .boolOut false)
    ∧ runBlock rangeM (.trySuspendAt 1)
        ⟨⟨0, SENTINEL⟩, some (0, 3),
         some (.awt ⟨false, .boolOut false, 0⟩), none, none⟩ [] =
      some (.jump 1
        ⟨⟨1, SENTINEL⟩, some (0, 3),
         some (.awt ⟨false, .boolOut false, 0⟩), none, none⟩
        [.readyCheck false, .suspendCall]) :=
  ⟨⟨by decide, by decide⟩,
   await_suspend_protocol.2.2.2.2.2.1 (Int × Int) Int Nat (Option Int)
     rangeM 1
     ⟨⟨0, SENTINEL⟩, some (0, 3),
      some (.awt ⟨false, .boolOut false, 0⟩), none, none⟩ []
     ⟨false, .boolOut false, 0⟩ (by decide) (by decide) (by decide)⟩

/-- C2: when body code raises an error, the engine's catch clause sets
`m_next = m_eh`.  If no guarded-region handler is registered
(`m_eh = SENTINEL`), the entry ends with `m_next = SENTINEL` (done), the
trace is extended by exactly `[unhandledCall e, destructState,
finalizeCall]` — the error is forwarded to `unhandled_exception` and
`finalize` runs exactly once — and `unhandled_exception`'s rethrow escapes
to the engine's caller.  If a handler is registered, the engine stores the
error in the carrier and re-enters the dispatch at the handler label with
no finalize; at the `COZ_CATCH` label, a matching clause continues
execution inside the handler code, and a non-matching clause re-raises the
carried error. -/
theorem engine_error_dispatch :
    (∀ (S V E P : Type) (m : Machine S V E P) (f : Nat)
        (cfg cfg2 : Cfg S V E P) (acc tr : List (Event V E))
        (c : Code S V E) (e : E),
      m.blocks cfg.st.m_next = some c →
      runFrom m f c cfg acc = some (.thrown e cfg2 tr) →
      cfg2.st.m_eh = SENTINEL →
      engineLoop m (f + 1) cfg acc =
        some ⟨{ cfg2 with
                st := { cfg2.st with m_next := SENTINEL },
                locals := none,
                promise := m.ops.finalize
                  (m.ops.unhandled_exception cfg2.promise e).1 },
              tr ++ [.unhandledCall e, .destructState, .finalizeCall],
              (m.ops.unhandled_exception cfg2.promise e).2⟩)
    ∧ (∀ (S V E P : Type) (m : Machine S V E P) (f : Nat)
        (cfg cfg2 : Cfg S V E P) (acc tr : List (Event V E))
        (c : Code S V E) (e : E),
      m.blocks cfg.st.m_next = some c →
      runFrom m f c cfg acc = some (.thrown e cfg2 tr) →
      cfg2.st.m_eh ≠ SENTINEL →
      engineLoop m (f + 1) cfg acc =
        engineLoop m f
          { cfg2 with
            st := { cfg2.st with m_next := cfg2.st.m_eh },
            exSlot := some e } tr)
    ∧ (∀ (S V E P : Type) (m : Machine S V E P) (sel : E → Bool)
        (hc : E → Code S V E) (cfg : Cfg S V E P) (acc : List (Event V E))
        (e : E),
      cfg.exSlot = some e → sel e = true →
      runBlock m (.rethrowStored sel hc) cfg acc =
        runBlock m (hc e) { cfg with exSlot := none } acc)
    ∧ (∀ (S V E P : Type) (m : Machine S V E P) (sel : E → Bool)
        (hc : E → Code S V E) (cfg : Cfg S V E P) (acc : List (Event V E))
        (e : E),
      cfg.exSlot = some e → sel e = false →
      runBlock m (.rethrowStored sel hc) cfg acc =
        some (.thrown e { cfg with exSlot := none } acc)) := by
  refine ⟨?_, ?_, ?_, ?_⟩
  · intro S V E P m f cfg cfg2 acc tr c e h h2 h3
    exact engineLoop_thrown_unhandled m f h h2 h3
  · intro S V E P m f cfg cfg2 acc tr c e h h2 h3
    exact engineLoop_thrown_handler m f h h2 h3
  · intro S V E P m sel hc cfg acc e hex hsel
    obtain ⟨st, lo, sc, ex, pr⟩ := cfg
    cases hex
    simp [runBlock, hsel]
  · intro S V E P m sel hc cfg acc e hex hsel
    obtain ⟨st, lo, sc, ex, pr⟩ := cfg
    cases hex
    simp [runBlock, hsel]

/-- C2 witness: the raise-without-handler coroutine `raiseM`, entered at its
body with `m_eh = SENTINEL`. -/
theorem engine_error_dispatch_witness :
    raiseM.blocks
      ((⟨⟨0, SENTINEL⟩, some (), none, none, none⟩ :
        Cfg Unit Unit Nat (Option Nat)).st.m_next) =
        some (.raiseE (fun _ => 5))
    ∧ runFrom raiseM 0 (.raiseE (fun _ => 5))
        (⟨⟨0, SENTINEL⟩, some (), none, none, none⟩ :
          Cfg Unit Unit Nat (Option Nat)) [] =
        some (.thrown 5 ⟨⟨0, SENTINEL⟩, some (), none, none, none⟩ [])
    ∧ (⟨⟨0, SENTINEL⟩, some (), none, none, none⟩ :
        Cfg Unit Unit Nat (Option Nat)).st.m_eh = SENTINEL
    ∧ engineLoop raiseM 1
        (⟨⟨0, SENTINEL⟩, some (), none, none, none⟩ :
          Cfg Unit Unit Nat (Option Nat)) [] =
        some ⟨⟨⟨SENTINEL, SENTINEL⟩, none, none, none, some 5⟩,
              [.unhandledCall 5, .destructState, .finalizeCall], some 5⟩ :=
  ⟨rfl, rfl, rfl,
   engine_error_dispatch.1 Unit Unit Nat (Option Nat) raiseM 0
     ⟨⟨0, SENTINEL⟩, some (), none, none, none⟩
     ⟨⟨0, SENTINEL⟩, some (), none, none, none⟩ [] [] (.raiseE (fun _ => 5))
     5 rfl rfl rfl⟩

/-- C3: for any coroutine suspended at a suspension point `ip` (the macro
places the companion destroy case `.destructTmpAt .gotoFinalize` at
`ip + 1`), `destroy` increments `m_next`, lands on that case, destructs the
live scratch-frame occupant, and funnels into the finalizer — the entry's
trace is exactly `[destructTmp, destructState, finalizeCall]`: `finalize`
runs exactly once and no body statement, no return hook, and no exception
handler runs.  Destroying an already-done coroutine trips
`assert(m_next != SENTINEL)`, modelled as `none`. -/
theorem destroy_runs_cleanup_and_finalizes :
    (∀ (S V E P : Type) (m : Machine S V E P) (f : Nat) (cfg : Cfg S V E P)
        (occ : ScratchVal V),
      cfg.st.m_next ≠ SENTINEL →
      m.blocks (cfg.st.m_next + 1) = some (.destructTmpAt .gotoFinalize) →
      cfg.scratch = some occ →
      coro_destroy m (f + 1) cfg =
        some ⟨{ cfg with
                st := { cfg.st with m_next := cfg.st.m_next + 1 },
                locals := none,
                scratch := none,
                promise := m.ops.finalize cfg.promise },
              [.destructTmp, .destructState, .finalizeCall], none⟩)
    ∧ (∀ (S V E P : Type) (m : Machine S V E P) (f : Nat)
        (cfg : Cfg S V E P),
      cfg.st.m_next = SENTINEL → coro_destroy m f cfg = none) := by
  constructor
  · intro S V E P m f cfg occ h1 h2 h3
    obtain ⟨⟨mn, meh⟩, lo, sc, ex, pr⟩ := cfg
    cases h3
    simp only [coro_destroy]
    rw [if_neg h1]
    exact engineLoop_toCaller m f h2
      (runFrom_toCaller m f (by simp [runBlock]))
  · intro S V E P m f cfg h
    simp [coro_destroy, h]

/-- C3 witness: destroying `range(0, 3)` while suspended at its yield. -/
theorem destroy_runs_cleanup_and_finalizes_witness :
    (rangeSusp 0 3).st.m_next ≠ SENTINEL
    ∧ rangeM.blocks ((rangeSusp 0 3).st.m_next + 1) =
        some (.destructTmpAt .gotoFinalize)
    ∧ (rangeSusp 0 3).scratch = some (.tmp 0)
    ∧ coro_destroy rangeM 1 (rangeSusp 0 3) =
        some ⟨⟨⟨2, SENTINEL⟩, none, none, none, some 0⟩,
              [.destructTmp, .destructState, .finalizeCall], none⟩ :=
  ⟨by decide, rfl, rfl,
   destroy_runs_cleanup_and_finalizes.1 (Int × Int) Int Nat (Option Int)
     rangeM 0 (rangeSusp 0 3) (.tmp 0) (by decide) rfl rfl⟩

/-- C1 counterexample: the claim says resume_pc equals the sentinel after
`destroy` (so `done()` would be true there).  In the code, `destroy` does
`++m_next` and the destroy case never stores `SENTINEL`: destroying
`range(0, 3)` suspended at its yield (resume label 1) leaves
`m_next = 2 ≠ SENTINEL`, so `done()` is false after `destroy`. -/
theorem done_after_destroy_counterexample :
    (coro_destroy rangeM 8 (rangeSusp 0 3)).map
        (fun o => (o.cfg.st.m_next, coro_done o.cfg)) =
      some (2, false) := by decide

/-- C1 (amended): `done()` is definitionally `resume_pc == SENTINEL`, so the
equivalence holds at every point of the lifecycle; `resume_pc` is
initialised to the sentinel at construction, set to 0 by `start` before the
first dispatch, and reset to the sentinel on normal return and on an
unhandled exception — but after `destroy` it holds the destroy ordinal
(suspension label + 1), not the sentinel, so `done()` is false there. -/
theorem done_iff_sentinel_lifecycle :
    (∀ (S V E P : Type) (cfg : Cfg S V E P),
      coro_done cfg = true ↔ cfg.st.m_next = SENTINEL)
    ∧ (∀ (S V E P : Type) (p0 : P),
      coro_done (mkCoroutine p0 : Cfg S V E P) = true)
    ∧ (∀ (S V E P : Type) (m : Machine S V E P) (fuel : Nat) (s0 : S)
        (cfg : Cfg S V E P),
      coro_start m fuel s0 cfg =
        engineLoop m fuel
          { cfg with locals := some s0, st := { cfg.st with m_next := 0 } }
          [])
    ∧ (coro_start rangeM 8 (0, 0) (mkCoroutine none) =
        some ⟨rangeDone none,
              [.returnVoidCall, .destructState, .finalizeCall], none⟩
      ∧ coro_done (rangeDone none) = true)
    ∧ (coro_start raiseM 8 () (mkCoroutine none) =
        some ⟨⟨⟨SENTINEL, SENTINEL⟩, none, none, none, some 5⟩,
              [.unhandledCall 5, .destructState, .finalizeCall], some 5⟩
      ∧ coro_done (⟨⟨SENTINEL, SENTINEL⟩, none, none, none, some 5⟩ :
          Cfg Unit Unit Nat (Option Nat)) = true)
    ∧ ((coro_destroy rangeM 8 (rangeSusp 0 3)).map
          (fun o => (o.cfg.st.m_next, coro_done o.cfg)) = some (2, false)) := by
  refine ⟨?_, ?_, fun _ _ _ _ _ _ _ _ => rfl, by decide, by decide, by decide⟩
  · intro S V E P cfg
    simp [coro_done]
  · intro S V E P p0
    simp [coro_done, mkCoroutine]

/-- C5: the claim says leaving a guarded region successfully restores the
previous `exception_pc`.  `COZ_TRY`'s expansion stores `m_eh = _coz_curr_eh`
on entry, but nothing restores `m_eh` when control falls out of the region
without an exception (`m_eh` is only restored at handler entry,
coroutine.hpp:637-641).  In `tcM` — an empty guarded region with a handler
matching error 7, followed by `throw 7` *after* the region — the stale
`m_eh = 1` routes the post-region error into the region's handler: its
`COZ_RETURN()` completes the coroutine normally (`returnVoidCall`, no
`unhandledCall`), where the claimed semantics would forward the error to
`unhandled_exception`.  The raise site still sees `m_eh = 1` even though
the region was exited. -/
theorem try_region_missing_eh_restore :
    coro_start tcM 8 () (mkCoroutine none) =
      some ⟨⟨⟨SENTINEL, SENTINEL⟩, none, none, none, none⟩,
            [.returnVoidCall, .destructState, .finalizeCall], none⟩
    ∧ runBlock tcM (.setEh 1 (.raiseE (fun _ => 7)))
        (⟨⟨0, SENTINEL⟩, some (), none, none, none⟩ :
          Cfg Unit Int Nat (Option Nat)) [] =
      some (.thrown 7 ⟨⟨0, 1⟩, some (), none, none, none⟩ []) := by
  exact ⟨by decide, by decide⟩

/-! ## The range generator (C9) -/

theorem coro_done_rangeSusp (i e : Int) :
    coro_done (rangeSusp i e) = false := by
  simp [coro_done, rangeSusp, SENTINEL]

theorem coro_done_rangeDone (v : Option Int) :
    coro_done (rangeDone v) = true := by
  simp [coro_done, rangeDone, SENTINEL]

theorem range_start_yield (f : Nat) (i e : Int) (h : i ≠ e) :
    coro_start rangeM (f + 1) (i, e) (mkCoroutine none) =
      some ⟨rangeSusp i e, [.yieldCall i], none⟩ := by
  have hb : ((i : Int) != e) = true := by simp [h]
  exact engineLoop_toCaller rangeM f rfl (runFrom_toCaller rangeM f
    (by simp [runBlock, rangeBody, rangeM, genOps, rangeSusp, mkCoroutine,
      hb]))

theorem range_start_done (f : Nat) (e : Int) :
    coro_start rangeM (f + 1) (e, e) (mkCoroutine none) =
      some ⟨rangeDone none,
            [.returnVoidCall, .destructState, .finalizeCall], none⟩ := by
  exact engineLoop_toCaller rangeM f rfl (runFrom_toCaller rangeM f
    (by simp [runBlock, rangeBody, rangeM, genOps, rangeDone, mkCoroutine]))

theorem range_resume_yield (f : Nat) (i e : Int) (h : i + 1 ≠ e) :
    coro_resume rangeM (f + 2) (rangeSusp i e) =
      some ⟨rangeSusp (i + 1) e, [.destructTmp, .yieldCall (i + 1)],
            none⟩ := by
  have hb : ((i + 1 : Int) != e) = true := by simp [h]
  have hj : runBlock rangeM
      (.destructTmpAt (.assign (fun s => (s.1 + 1, s.2)) (.goto 0)))
      (rangeSusp i e) [] =
      some (.jump 0 ⟨⟨1, SENTINEL⟩, some (i + 1, e), none, none, some i⟩
        [.destructTmp]) := by
    simp [runBlock, rangeSusp]
  have hr : runFrom rangeM (f + 1)
      (.destructTmpAt (.assign (fun s => (s.1 + 1, s.2)) (.goto 0)))
      (rangeSusp i e) [] =
      some (.toCaller (rangeSusp (i + 1) e)
        [.destructTmp, .yieldCall (i + 1)]) := by
    rw [runFrom_jump rangeM f hj rfl]
    exact runFrom_toCaller rangeM f
      (by simp [runBlock, rangeBody, rangeM, genOps, rangeSusp, hb])
  exact engineLoop_toCaller rangeM (f + 1) rfl hr

theorem range_resume_finish (f : Nat) (i e : Int) (h : i + 1 = e) :
    coro_resume rangeM (f + 2) (rangeSusp i e) =
      some ⟨rangeDone (some i),
            [.destructTmp, .returnVoidCall, .destructState, .finalizeCall],
            none⟩ := by
  have hb : ((i + 1 : Int) != e) = false := by simp [h]
  have hj : runBlock rangeM
      (.destructTmpAt (.assign (fun s => (s.1 + 1, s.2)) (.goto 0)))
      (rangeSusp i e) [] =
      some (.jump 0 ⟨⟨1, SENTINEL⟩, some (i + 1, e), none, none, some i⟩
        [.destructTmp]) := by
    simp [runBlock, rangeSusp]
  have hr : runFrom rangeM (f + 1)
      (.destructTmpAt (.assign (fun s => (s.1 + 1, s.2)) (.goto 0)))
      (rangeSusp i e) [] =
      some (.toCaller (rangeDone (some i))
        [.destructTmp, .returnVoidCall, .destructState, .finalizeCall]) := by
    rw [runFrom_jump rangeM f hj rfl]
    exact runFrom_toCaller rangeM f
      (by simp [runBlock, rangeBody, rangeM, genOps, rangeDone, hb])
  exact engineLoop_toCaller rangeM (f + 1) rfl hr

theorem refRange_self (e : Int) : refRange e e = [] := by
  unfold refRange
  rw [show (e - e).toNat = 0 from by omega]
  rfl

theorem refRange_cons (i e : Int) (h : i < e) :
    refRange i e = i :: refRange (i + 1) e := by
  unfold refRange
  obtain ⟨n, hn⟩ : ∃ n, (e - i).toNat = n + 1 :=
    ⟨(e - i).toNat - 1, by omega⟩
  rw [hn, show (e - (i + 1)).toNat = n from by omega]
  rfl

theorem drainGen_succ (gas : Nat)
    (cfg : Cfg (Int × Int) Int Nat (Option Int)) :
    drainGen (gas + 1) cfg =
      if coro_done cfg then some ([], cfg)
      else
        match cfg.promise with
        | none => none
        | some v =>
          match coro_resume rangeM 8 cfg with
          | none => none
          | some out =>
            match drainGen gas out.cfg with
            | none => none
            | some (vs, cf) => some (v :: vs, cf) := rfl

theorem drainGen_step_done (gas : Nat)
    (cfg : Cfg (Int × Int) Int Nat (Option Int))
    (h : coro_done cfg = true) :
    drainGen (gas + 1) cfg = some ([], cfg) := by
  rw [drainGen_succ, h]
  rfl

theorem drainGen_step_not_done (gas : Nat)
    (cfg ocfg : Cfg (Int × Int) Int Nat (Option Int)) (v : Int)
    (otr : List (Event Int Nat)) (oesc : Option Nat)
    (h1 : coro_done cfg = false) (h2 : cfg.promise = some v)
    (h3 : coro_resume rangeM 8 cfg = some ⟨ocfg, otr, oesc⟩) :
    drainGen (gas + 1) cfg =
      match drainGen gas ocfg with
      | none => none
      | some (vs, cf) => some (v :: vs, cf) := by
  rw [drainGen_succ, h1, h2, h3]
  rfl

theorem drain_susp :
    ∀ (n : Nat) (i e : Int), (e - i).toNat = n + 1 →
      drainGen (n + 1 + 1) (rangeSusp i e) =
        some (refRange i e, rangeDone (some (e - 1))) := by
  intro n
  induction n with
  | zero =>
    intro i e hn
    have he : i + 1 = e := by omega
    have hres : coro_resume rangeM 8 (rangeSusp i e) =
        some ⟨rangeDone (some i),
          [.destructTmp, .returnVoidCall, .destructState, .finalizeCall],
          none⟩ :=
      range_resume_finish 6 i e he
    have hre : refRange i e = [i] := by
      rw [refRange_cons i e (by omega), ← he, refRange_self]
    have he1 : e - 1 = i := by omega
    rw [hre, he1,
      drainGen_step_not_done (0 + 1) (rangeSusp i e) (rangeDone (some i)) i
        [.destructTmp, .returnVoidCall, .destructState, .finalizeCall] none
        (coro_done_rangeSusp i e) rfl hres,
      drainGen_step_done 0 (rangeDone (some i)) (coro_done_rangeDone _)]
  | succ n ih =>
    intro i e hn
    have hne : i + 1 ≠ e := by omega
    have hres : coro_resume rangeM 8 (rangeSusp i e) =
        some ⟨rangeSusp (i + 1) e, [.destructTmp, .yieldCall (i + 1)],
          none⟩ :=
      range_resume_yield 6 i e hne
    have ihx := ih (i + 1) e (by omega)
    rw [refRange_cons i e (by omega),
      drainGen_step_not_done (n + 1 + 1) (rangeSusp i e)
        (rangeSusp (i + 1) e) i [.destructTmp, .yieldCall (i + 1)] none
        (coro_done_rangeSusp i e) rfl hres,
      ihx]

/-- C9: the generator coroutine `range(i, e)` consumed through the
`generator_impl` iterator protocol yields exactly the integers
`i, i+1, ..., e-1` of the reference sequential loop, in increasing order,
and `done()` becomes true exactly after the last value is consumed; in
particular `range(0, 3)` yields `0, 1, 2` and reports done on the fourth
entry. -/
theorem range_yields_reference_sequence :
    (∀ (i e : Int), i ≤ e →
      ∃ fin, rangeRun i e = some (refRange i e, fin)
        ∧ coro_done fin = true)
    ∧ rangeRun 0 3 = some ([0, 1, 2], rangeDone (some 2)) := by
  constructor
  · intro i e h
    rcases eq_or_lt_of_le h with he | hlt
    · refine ⟨rangeDone none, ?_, coro_done_rangeDone none⟩
      subst he
      have hs : coro_start rangeM 8 (i, i) (mkCoroutine none) =
          some ⟨rangeDone none,
            [.returnVoidCall, .destructState, .finalizeCall], none⟩ :=
        range_start_done 7 i
      unfold rangeRun
      rw [hs, refRange_self]
      show drainGen ((i - i).toNat + 1) (rangeDone none) =
        some ([], rangeDone none)
      rw [show (i - i).toNat = 0 from by omega]
      exact drainGen_step_done 0 (rangeDone none) (coro_done_rangeDone none)
    · refine ⟨rangeDone (some (e - 1)), ?_, coro_done_rangeDone _⟩
      have hs : coro_start rangeM 8 (i, e) (mkCoroutine none) =
          some ⟨rangeSusp i e, [.yieldCall i], none⟩ :=
        range_start_yield 7 i e (by omega)
      unfold rangeRun
      rw [hs]
      show drainGen ((e - i).toNat + 1) (rangeSusp i e) =
        some (refRange i e, rangeDone (some (e - 1)))
      obtain ⟨n, hn⟩ : ∃ n, (e - i).toNat = n + 1 :=
        ⟨(e - i).toNat - 1, by omega⟩
      rw [hn]
      exact drain_susp n i e hn
  · decide

/-- C9 witness: the concrete scenario `(start, end) = (0, 3)`. -/
theorem range_yields_reference_sequence_witness :
    (0 : Int) ≤ 3
    ∧ ∃ fin, rangeRun 0 3 = some (refRange 0 3, fin)
        ∧ coro_done fin = true :=
  ⟨by decide, range_yields_reference_sequence.1 0 3 (by decide)⟩

end Coz
